import Mathlib

/-!
Verification of the record-joining and filtering pipeline of the
Heidelberg council dashboard (`src/Councildashboard_.py`).

The embedding models the pandas data frames as Lean lists of records and
translates the data-layer functions (`load_and_preprocess_decisions`,
`load_and_preprocess_people`, and the sidebar filters) into executable
Lean definitions.
-/

namespace Dashboard

/-- A raw agenda-item record (one element of the `data` array of the
decisions JSON file).  `result` is `none` when the JSON field is
null/absent; pandas represents both as `NaN`, which is what
`fillna` acts on. `created` is the timestamp, modelled as seconds
since the epoch (timezone-naive, after `tz_convert(None)`). -/
structure AgendaItem where
  name : String
  created : Nat
  result : Option String
deriving DecidableEq

/-- A processed decision row: the agenda item together with the derived
`status` column added on line 47 of the source. -/
structure Decision where
  name : String
  created : Nat
  status : String
deriving DecidableEq

/-- Python's `str.strip()` (as applied by pandas `.str.strip()` on
line 47): removes leading and trailing whitespace. -/
def pyStrip (s : String) : String :=
  String.mk (((s.data.dropWhile Char.isWhitespace).reverse.dropWhile
    Char.isWhitespace).reverse)

/-- Line 47 of the source:
`df['status'] = df['result'].fillna('No result').str.strip()`.
`fillna` replaces only null (`NaN`) entries, then `.str.strip()` trims
whitespace from whatever string is present. -/
def deriveStatus (result : Option String) : String :=
  pyStrip (result.getD "No result")

/-- The two statuses excluded from the actionable view (line 50). -/
def excludedStatuses : List String := ["No result", "Kenntnis genommen"]

/-- Lines 40-52 of `load_and_preprocess_decisions`, on an already-parsed
`data` array: build the frame with the derived `status` column, then
`df_filtered = df[~df['status'].isin(['No result', 'Kenntnis genommen'])]`,
returning the pair `(df, df_filtered)`. -/
def load_and_preprocess_decisions_rows (items : List AgendaItem) :
    List Decision × List Decision :=
  let df := items.map (fun a =>
    { name := a.name, created := a.created, status := deriveStatus a.result })
  let df_filtered := df.filter (fun d => !(decide (d.status ∈ excludedStatuses)))
  (df, df_filtered)

/-- `.dt.date` on a timestamp: the calendar day of an
epoch-seconds instant. -/
def dateOf (created : Nat) : Nat := created / 86400

/-- Lines 204-207 of the source: the date-range filter
`df[(df['created'].dt.date >= lo) & (df['created'].dt.date <= hi)]`,
inclusive on both ends. -/
def filterByDateRange (rows : List Decision) (lo hi : Nat) : List Decision :=
  rows.filter (fun r => decide (lo ≤ dateOf r.created) && decide (dateOf r.created ≤ hi))

/-- Line 214 of the source: the status filter
`filtered_df[filtered_df['status'].isin(selected_statuses)]`. -/
def filterByStatus (rows : List Decision) (allowed : List String) : List Decision :=
  rows.filter (fun r => decide (r.status ∈ allowed))

/-- A person record from the people JSON file.  `name` is `none` when
the field is null/absent (pandas `NaN`). -/
structure Person where
  id : String
  name : Option String
deriving DecidableEq

/-- An organization record from the organizations JSON file. -/
structure Organization where
  id : String
  name : Option String
deriving DecidableEq

/-- A membership record from the memberships JSON file.  `person` and
`organization` are the foreign keys; `role` and `startDate` are `none`
when the field is null/absent (pandas `NaN`). -/
structure Membership where
  person : String
  organization : String
  role : Option String
  startDate : Option String
deriving DecidableEq

/-- One row of the final joined table returned by
`load_and_preprocess_people` (columns `Name`, `Organization`, `Role`,
`Start Date`), after `fillna('Unknown')` every column is a string. -/
structure MemberRow where
  Name : String
  Organization : String
  Role : String
  StartDate : String
deriving DecidableEq

/-- `leadsWith pat s` is true when the character list `s` begins with
`pat` (the head-position check of Python's substring search). -/
def leadsWith : List Char → List Char → Bool
  | [], _ => true
  | _ :: _, [] => false
  | p :: ps, c :: cs => p == c && leadsWith ps cs

/-- `occursIn pat s` is true when `pat` occurs as a contiguous substring
of `s` at some position. -/
def occursIn (pat : List Char) : List Char → Bool
  | [] => leadsWith pat []
  | c :: rest => leadsWith pat (c :: rest) || occursIn pat rest

/-- Fuel-indexed core of Python's `str.replace(pat, '')`: scan left to
right and delete each (non-overlapping) occurrence of `pat`.  The fuel
bounds the number of scan steps; `pyReplaceEmpty` supplies `s.length`
steps, which is enough because every step consumes at least one
character of the scanned list. -/
def pyDeleteAux (pat : List Char) : Nat → List Char → List Char
  | _, [] => []
  | 0, s => s
  | fuel + 1, c :: rest =>
    if leadsWith pat (c :: rest) then
      pyDeleteAux pat fuel (List.drop pat.length (c :: rest))
    else
      c :: pyDeleteAux pat fuel rest

/-- Python/pandas `s.str.replace(pat, '')` (plain substring semantics,
the replacement string being empty): delete every occurrence of `pat`
anywhere in `s`, scanning left to right. -/
def pyReplaceEmpty (pat s : String) : String :=
  String.mk (pyDeleteAux pat.data s.data.length s.data)

/-- Line 103 of the source:
`.str.replace('Fraktion der ', '').str.replace('Fraktionsgemeinschaft ', '')`
applied to the `Organization` column. -/
def cleanOrg (s : String) : String :=
  pyReplaceEmpty "Fraktionsgemeinschaft " (pyReplaceEmpty "Fraktion der " s)

/-- Lines 80-85 of the source: pandas left merge of the memberships
frame with `df_people[['id', 'name']]` on `person = id`.  For each
membership row (in order), emit one output row per matching person (in
input order); a row with no match is kept once with a null
`name_person`.  The second component is the `name_person` column:
`none` when the join found no match or the matched person's `name` is
itself null (both are `NaN` in pandas). -/
def merge_people (ms : List Membership) (ps : List Person) :
    List (Membership × Option String) :=
  ms.flatMap (fun m =>
    match ps.filter (fun p => decide (p.id = m.person)) with
    | [] => [(m, none)]
    | l => l.map (fun p => (m, p.name)))

/-- Lines 88-93 of the source: pandas left merge of the previous result
with `df_orgs[['id', 'name']]` on `organization = id`; the second
component is the `name_org` column. -/
def merge_orgs (rows : List (Membership × Option String))
    (os : List Organization) :
    List ((Membership × Option String) × Option String) :=
  rows.flatMap (fun r =>
    match os.filter (fun o => decide (o.id = r.1.organization)) with
    | [] => [(r, none)]
    | l => l.map (fun o => (r, o.name)))

/-- Lines 80-105 of `load_and_preprocess_people`, on already-parsed
`data` arrays: the two left merges, the column selection
`[['name_person', 'name_org', 'role', 'startDate']]`, the
`fillna('Unknown')` over the whole frame, and finally the
organization-name replacement of line 103. -/
def load_and_preprocess_people_rows (ps : List Person)
    (os : List Organization) (ms : List Membership) : List MemberRow :=
  let df_members := merge_orgs (merge_people ms ps) os
  df_members.map (fun r =>
    { Name := r.1.2.getD "Unknown"
      Organization := cleanOrg (r.2.getD "Unknown")
      Role := r.1.1.role.getD "Unknown"
      StartDate := r.1.1.startDate.getD "Unknown" })

/-- Line 281 of the source: the organization filter
`df_members[df_members['Organization'].isin(selected_orgs)]`. -/
def filterByOrganization (rows : List MemberRow) (allowed : List String) :
    List MemberRow :=
  rows.filter (fun r => decide (r.Organization ∈ allowed))

/-- The state of one source JSON file as seen by a loader: the file can
be absent, present but structurally malformed (invalid JSON, or the
top-level `data` key missing), or well-formed with a list of parsed
records. -/
inductive SourceFile (α : Type) where
  | missing
  | malformed
  | wellFormed (rows : List α)

/-- The Python exceptions relevant to the loaders: `FileNotFoundError`
from `open`, and `ValueError`/`KeyError` from `json.load` /
`data['data']` on malformed content. -/
inductive PyError where
  | fileNotFound
  | valueOrKeyError
deriving DecidableEq

/-- `open` + `json.load` + `['data']` on one source file: a missing file
raises `FileNotFoundError`, malformed content raises
`ValueError`/`KeyError`, a well-formed file yields its records. -/
def readSource {α : Type} : SourceFile α → Except PyError (List α)
  | .missing => .error .fileNotFound
  | .malformed => .error .valueOrKeyError
  | .wellFormed rows => .ok rows

/-- `load_and_preprocess_decisions` (lines 32-55): the `try` block reads
and processes the decisions file; the sole `except FileNotFoundError`
clause returns the pair of empty frames, while any other exception
(malformed JSON, missing `data` key) propagates out of the function. -/
def load_and_preprocess_decisions (src : SourceFile AgendaItem) :
    Except PyError (List Decision × List Decision) :=
  match (readSource src).map load_and_preprocess_decisions_rows with
  | .error .fileNotFound => .ok ([], [])
  | .error e => .error e
  | .ok r => .ok r

/-- `load_and_preprocess_people` (lines 58-108): the `try` block reads
the people, organizations and memberships files in that order and joins
them; the sole `except FileNotFoundError` clause returns an empty
frame, while any other exception propagates. -/
def load_and_preprocess_people (psrc : SourceFile Person)
    (osrc : SourceFile Organization) (msrc : SourceFile Membership) :
    Except PyError (List MemberRow) :=
  let body : Except PyError (List MemberRow) := do
    let people_data ← readSource psrc
    let org_data ← readSource osrc
    let membership_data ← readSource msrc
    pure (load_and_preprocess_people_rows people_data org_data membership_data)
  match body with
  | .error .fileNotFound => .ok []
  | .error e => .error e
  | .ok r => .ok r

end Dashboard

namespace Dashboard

/-! ## Claims about the decisions pipeline -/

/-- C1 fails as stated: an agenda item whose `result` field is present
but equal to the empty string keeps an empty derived `status`, because
pandas `fillna` replaces only null entries.  At the concrete input
`result = ""`, the derived status is `""`, not `"No result"`. -/
theorem C1_counterexample :
    ((load_and_preprocess_decisions_rows
        [{ name := "item", created := 0, result := some "" }]).1.map
      Decision.status) = [""] ∧ ("" : String) ≠ "No result" :=
  ⟨rfl, by decide⟩

/-- C1 amended: the full view of `load_and_preprocess_decisions` derives
`status` as `fillna('No result')` followed by `.str.strip()`; an absent
(null) `result` becomes the literal `"No result"`, but a present empty
string `result` stays the empty string — only the null case collapses
to `"No result"`. -/
theorem C1_amended_status_derivation (items : List AgendaItem) :
    (load_and_preprocess_decisions_rows items).1 =
      items.map (fun a =>
        { name := a.name, created := a.created, status := deriveStatus a.result }) ∧
    deriveStatus none = "No result" ∧ deriveStatus (some "") = "" :=
  ⟨rfl, rfl, rfl⟩

/-- C5: the actionable view returned by `load_and_preprocess_decisions`
contains no item whose status is `"No result"` or
`"Kenntnis genommen"`, and an item with any other status is in the
actionable view iff it is in the full view. -/
theorem C5_actionable_view (items : List AgendaItem) (d : Decision) :
    (d ∈ (load_and_preprocess_decisions_rows items).2 →
      d.status ≠ "No result" ∧ d.status ≠ "Kenntnis genommen") ∧
    (d.status ≠ "No result" → d.status ≠ "Kenntnis genommen" →
      (d ∈ (load_and_preprocess_decisions_rows items).2 ↔
        d ∈ (load_and_preprocess_decisions_rows items).1)) := by
  have h2 : (load_and_preprocess_decisions_rows items).2 =
      (load_and_preprocess_decisions_rows items).1.filter
        (fun d => !(decide (d.status ∈ excludedStatuses))) := rfl
  constructor
  · intro hd
    rw [h2, List.mem_filter] at hd
    have hx := hd.2
    simp [excludedStatuses] at hx
    exact hx
  · intro h1 hk
    rw [h2, List.mem_filter]
    simp [excludedStatuses, h1, hk]

/-- Witness for C5 at a concrete input: an item with status
`"Beschlossen"` is present in the actionable view. -/
theorem C5_actionable_view_witness :
    (⟨"a", 0, "Beschlossen"⟩ : Decision) ∈
      (load_and_preprocess_decisions_rows [⟨"a", 0, some "Beschlossen"⟩]).2 := by
  have h := (C5_actionable_view [⟨"a", 0, some "Beschlossen"⟩]
    ⟨"a", 0, "Beschlossen"⟩).2 (by decide) (by decide)
  exact h.mpr (by decide)

/-- C7: filtering a non-empty collection by membership in an empty
allowed set yields the empty collection, for both the decisions status
filter and the people organization filter — the empty selection is not
treated as "no filter". -/
theorem C7_empty_allowed_set (rows : List Decision) (prows : List MemberRow)
    (_h1 : rows ≠ []) (_h2 : prows ≠ []) :
    filterByStatus rows [] = [] ∧ filterByOrganization prows [] = [] := by
  constructor <;> simp [filterByStatus, filterByOrganization]

/-- Witness for C7 at concrete non-empty inputs. -/
theorem C7_empty_allowed_set_witness :
    ([⟨"a", 0, "S"⟩] : List Decision) ≠ [] ∧
    ([⟨"N", "O", "R", "D"⟩] : List MemberRow) ≠ [] ∧
    filterByStatus [⟨"a", 0, "S"⟩] [] = [] ∧
    filterByOrganization [⟨"N", "O", "R", "D"⟩] [] = [] := by
  have h := C7_empty_allowed_set [⟨"a", 0, "S"⟩] [⟨"N", "O", "R", "D"⟩]
    (by decide) (by decide)
  exact ⟨by decide, by decide, h.1, h.2⟩

/-- C8: filtering by an allowed set that contains every status value
occurring in the collection returns exactly the original collection
(order preserved); in particular this holds for the set of all values
of the field, as built by the sidebar from `unique()`. -/
theorem C8_filter_roundtrip (rows : List Decision) (allowed : List String)
    (h : ∀ d ∈ rows, d.status ∈ allowed) :
    filterByStatus rows allowed = rows := by
  unfold filterByStatus
  exact List.filter_eq_self.mpr (fun d hd => by simp [h d hd])

/-- Witness for C8 at a concrete input. -/
theorem C8_filter_roundtrip_witness :
    filterByStatus [⟨"a", 0, "S"⟩, ⟨"b", 1, "T"⟩] ["S", "T"] =
      [⟨"a", 0, "S"⟩, ⟨"b", 1, "T"⟩] :=
  C8_filter_roundtrip _ _ (by decide)

/-- C9: the date-range filter keeps exactly the rows whose day lies in
the inclusive range `[lo, hi]`, and with equal endpoints it keeps
exactly the rows falling on that single day. -/
theorem C9_date_range_inclusive (rows : List Decision) (lo hi : Nat) :
    (∀ r, r ∈ filterByDateRange rows lo hi ↔
      r ∈ rows ∧ lo ≤ dateOf r.created ∧ dateOf r.created ≤ hi) ∧
    filterByDateRange rows lo lo =
      rows.filter (fun r => decide (dateOf r.created = lo)) := by
  constructor
  · intro r
    simp [filterByDateRange, List.mem_filter, and_assoc]
  · unfold filterByDateRange
    apply List.filter_congr
    intro r _
    rw [← Bool.decide_and]
    exact decide_eq_decide.mpr (by omega)

/-! ## Claims about the people/membership join -/

/-- If the mapped keys of a list are pairwise distinct, filtering for a
fixed key value keeps at most one element. -/
theorem length_filter_key_le_one {α : Type} (f : α → String) (l : List α)
    (h : (l.map f).Nodup) (x : String) :
    (l.filter (fun a => decide (f a = x))).length ≤ 1 := by
  induction l with
  | nil => simp
  | cons a t ih =>
    rw [List.map_cons, List.nodup_cons] at h
    by_cases hax : f a = x
    · have ht : t.filter (fun b => decide (f b = x)) = [] := by
        rw [List.filter_eq_nil_iff]
        intro b hb hbx
        rw [decide_eq_true_eq] at hbx
        exact h.1 (List.mem_map.mpr ⟨b, hb, by rw [hbx, hax]⟩)
      simp [List.filter_cons, hax, ht]
    · simp only [List.filter_cons, decide_eq_true_eq, if_neg hax]
      exact ih h.2

/-- A `flatMap` whose branches each produce exactly one element
preserves length. -/
theorem length_flatMap_of_branch_one {α β : Type} (f : α → List β)
    (l : List α) (h : ∀ a ∈ l, (f a).length = 1) :
    (l.flatMap f).length = l.length := by
  induction l with
  | nil => rfl
  | cons a t ih =>
    rw [List.flatMap_cons, List.length_append, h a (List.mem_cons_self a t),
      ih (fun b hb => h b (List.mem_cons_of_mem a hb)), List.length_cons]
    omega

/-- With pairwise-distinct person ids, the first left merge emits
exactly one row per membership. -/
theorem merge_people_length (ms : List Membership) (ps : List Person)
    (hp : (ps.map Person.id).Nodup) :
    (merge_people ms ps).length = ms.length := by
  unfold merge_people
  apply length_flatMap_of_branch_one
  intro m _
  have hf := length_filter_key_le_one Person.id ps hp m.person
  cases hfe : ps.filter (fun p => decide (p.id = m.person)) with
  | nil => simp [hfe]
  | cons p t2 =>
    rw [hfe] at hf
    simp only [List.length_cons] at hf
    have ht2 : t2 = [] := List.length_eq_zero.mp (by omega)
    subst ht2
    simp [hfe]

/-- With pairwise-distinct organization ids, the second left merge
emits exactly one row per input row. -/
theorem merge_orgs_length (rows : List (Membership × Option String))
    (os : List Organization) (ho : (os.map Organization.id).Nodup) :
    (merge_orgs rows os).length = rows.length := by
  unfold merge_orgs
  apply length_flatMap_of_branch_one
  intro r _
  have hf := length_filter_key_le_one Organization.id os ho r.1.organization
  cases hfe : os.filter (fun o => decide (o.id = r.1.organization)) with
  | nil => simp [hfe]
  | cons o t2 =>
    rw [hfe] at hf
    simp only [List.length_cons] at hf
    have ht2 : t2 = [] := List.length_eq_zero.mp (by omega)
    subst ht2
    simp [hfe]

/-- C2: when person ids and organization ids are pairwise distinct, the
joined table has exactly one row per membership record — the two left
joins neither drop nor duplicate rows. -/
theorem C2_join_preserves_cardinality (ps : List Person)
    (os : List Organization) (ms : List Membership)
    (hp : (ps.map Person.id).Nodup) (ho : (os.map Organization.id).Nodup) :
    (load_and_preprocess_people_rows ps os ms).length = ms.length := by
  show ((merge_orgs (merge_people ms ps) os).map _).length = ms.length
  rw [List.length_map, merge_orgs_length _ _ ho, merge_people_length _ _ hp]

/-- Witness for C2 at a concrete input with two membership rows. -/
theorem C2_join_preserves_cardinality_witness :
    (([⟨"p1", some "Alice"⟩] : List Person).map Person.id).Nodup ∧
    (([⟨"o1", some "G"⟩] : List Organization).map Organization.id).Nodup ∧
    (load_and_preprocess_people_rows [⟨"p1", some "Alice"⟩] [⟨"o1", some "G"⟩]
      [⟨"p1", "o1", some "r", some "s"⟩, ⟨"p2", "o2", none, none⟩]).length = 2 :=
  ⟨by decide, by decide,
    C2_join_preserves_cardinality _ _ _ (by decide) (by decide)⟩

/-- Every membership produces at least one row in the first merge. -/
theorem exists_mem_merge_people (ms : List Membership) (ps : List Person)
    {m : Membership} (hm : m ∈ ms) :
    ∃ pn, (m, pn) ∈ merge_people ms ps := by
  unfold merge_people
  suffices h : ∃ pn, (m, pn) ∈
      (match ps.filter (fun p => decide (p.id = m.person)) with
        | [] => [(m, (none : Option String))]
        | l => l.map (fun (p : Person) => (m, p.name))) by
    obtain ⟨pn, hpn⟩ := h
    exact ⟨pn, List.mem_flatMap.mpr ⟨m, hm, hpn⟩⟩
  cases hfe : ps.filter (fun p => decide (p.id = m.person)) with
  | nil => exact ⟨none, by simp⟩
  | cons p t2 =>
    exact ⟨p.name, List.mem_map.mpr ⟨p, List.mem_cons_self p t2, rfl⟩⟩

/-- A membership whose person key matches nothing is kept with a null
`name_person`. -/
theorem mem_merge_people_of_unmatched (ms : List Membership)
    (ps : List Person) {m : Membership} (hm : m ∈ ms)
    (hp : ∀ p ∈ ps, p.id ≠ m.person) :
    (m, (none : Option String)) ∈ merge_people ms ps := by
  have hfe : ps.filter (fun p => decide (p.id = m.person)) = [] := by
    rw [List.filter_eq_nil_iff]
    intro p hpp hdec
    rw [decide_eq_true_eq] at hdec
    exact hp p hpp hdec
  unfold merge_people
  exact List.mem_flatMap.mpr ⟨m, hm, by simp [hfe]⟩

/-- Every row entering the second merge produces at least one row. -/
theorem exists_mem_merge_orgs (rows : List (Membership × Option String))
    (os : List Organization) {r : Membership × Option String}
    (hr : r ∈ rows) :
    ∃ onm, (r, onm) ∈ merge_orgs rows os := by
  unfold merge_orgs
  suffices h : ∃ onm, (r, onm) ∈
      (match os.filter (fun o => decide (o.id = r.1.organization)) with
        | [] => [(r, (none : Option String))]
        | l => l.map (fun (o : Organization) => (r, o.name))) by
    obtain ⟨onm, ho⟩ := h
    exact ⟨onm, List.mem_flatMap.mpr ⟨r, hr, ho⟩⟩
  cases hfe : os.filter (fun o => decide (o.id = r.1.organization)) with
  | nil => exact ⟨none, by simp⟩
  | cons o t2 =>
    exact ⟨o.name, List.mem_map.mpr ⟨o, List.mem_cons_self o t2, rfl⟩⟩

/-- A row whose organization key matches nothing is kept with a null
`name_org`. -/
theorem mem_merge_orgs_of_unmatched (rows : List (Membership × Option String))
    (os : List Organization) {r : Membership × Option String} (hr : r ∈ rows)
    (ho : ∀ o ∈ os, o.id ≠ r.1.organization) :
    (r, (none : Option String)) ∈ merge_orgs rows os := by
  have hfe : os.filter (fun o => decide (o.id = r.1.organization)) = [] := by
    rw [List.filter_eq_nil_iff]
    intro o hoo hdec
    rw [decide_eq_true_eq] at hdec
    exact ho o hoo hdec
  unfold merge_orgs
  exact List.mem_flatMap.mpr ⟨r, hr, by simp [hfe]⟩

/-- C3: a membership whose person (resp. organization) foreign key has
no matching person (resp. organization) id is not dropped: the joined
table contains a row for it whose `Name` (resp. `Organization`) column
is the sentinel `"Unknown"`. -/
theorem C3_unresolved_fk_unknown (ps : List Person) (os : List Organization)
    (ms : List Membership) (m : Membership) (hm : m ∈ ms) :
    ((∀ p ∈ ps, p.id ≠ m.person) →
      ∃ row ∈ load_and_preprocess_people_rows ps os ms,
        row.Name = "Unknown" ∧ row.Role = m.role.getD "Unknown" ∧
        row.StartDate = m.startDate.getD "Unknown") ∧
    ((∀ o ∈ os, o.id ≠ m.organization) →
      ∃ row ∈ load_and_preprocess_people_rows ps os ms,
        row.Organization = "Unknown" ∧ row.Role = m.role.getD "Unknown" ∧
        row.StartDate = m.startDate.getD "Unknown") := by
  constructor
  · intro hp
    have h1 := mem_merge_people_of_unmatched ms ps hm hp
    obtain ⟨onm, h2⟩ := exists_mem_merge_orgs (merge_people ms ps) os h1
    exact ⟨_, List.mem_map.mpr ⟨((m, none), onm), h2, rfl⟩, rfl, rfl, rfl⟩
  · intro ho
    obtain ⟨pn, h1⟩ := exists_mem_merge_people ms ps hm
    have h2 := mem_merge_orgs_of_unmatched (merge_people ms ps) os h1 ho
    refine ⟨_, List.mem_map.mpr ⟨((m, pn), none), h2, rfl⟩, ?_, rfl, rfl⟩
    show cleanOrg ((none : Option String).getD "Unknown") = "Unknown"
    rfl

/-- Witness for C3: the spec's concrete scenario — membership
`(p9, o1)` where `p9` matches no person — yields a row whose name is
`"Unknown"`. -/
theorem C3_unresolved_fk_unknown_witness :
    ∃ row ∈ load_and_preprocess_people_rows [⟨"p1", some "Alice"⟩]
      [⟨"o1", some "Fraktion der Grünen"⟩]
      [⟨"p9", "o1", some "member", some "2020"⟩],
      row.Name = "Unknown" ∧ row.Role = "member" ∧ row.StartDate = "2020" := by
  have h := (C3_unresolved_fk_unknown [⟨"p1", some "Alice"⟩]
    [⟨"o1", some "Fraktion der Grünen"⟩]
    [⟨"p9", "o1", some "member", some "2020"⟩]
    ⟨"p9", "o1", some "member", some "2020"⟩ (by decide)).1 (by decide)
  simpa using h

/-- C10: the `fillna('Unknown')` of line 100 applies to the whole
frame, not only the joined name columns: a membership with a missing
`role` or a missing `startDate` gets the `"Unknown"` sentinel in
whichever of those columns is missing (each column independently of
the other). -/
theorem C10_fillna_all_columns (ps : List Person) (os : List Organization)
    (ms : List Membership) (m : Membership) (hm : m ∈ ms) :
    ∃ row ∈ load_and_preprocess_people_rows ps os ms,
      (m.role = none → row.Role = "Unknown") ∧
      (m.startDate = none → row.StartDate = "Unknown") := by
  obtain ⟨pn, h1⟩ := exists_mem_merge_people ms ps hm
  obtain ⟨onm, h2⟩ := exists_mem_merge_orgs (merge_people ms ps) os h1
  refine ⟨_, List.mem_map.mpr ⟨((m, pn), onm), h2, rfl⟩, ?_, ?_⟩
  · intro hr
    show m.role.getD "Unknown" = "Unknown"
    rw [hr]
    rfl
  · intro hs
    show m.startDate.getD "Unknown" = "Unknown"
    rw [hs]
    rfl

/-! ## The organization-name cleanup (C4) -/

/-- A pattern that occurs nowhere in the scanned list is never deleted:
the scan returns the list unchanged, for any amount of fuel. -/
theorem pyDeleteAux_of_not_occursIn (pat : List Char) (fuel : Nat)
    (s : List Char) (h : occursIn pat s = false) :
    pyDeleteAux pat fuel s = s := by
  induction s generalizing fuel with
  | nil => cases fuel <;> rfl
  | cons c rest ih =>
    simp only [occursIn, Bool.or_eq_false_iff] at h
    cases fuel with
    | zero => rfl
    | succ fuel =>
      simp only [pyDeleteAux, h.1, Bool.false_eq_true, if_false]
      rw [ih fuel h.2]

/-- A list begins with itself followed by anything. -/
theorem leadsWith_append_self (p t : List Char) : leadsWith p (p ++ t) = true := by
  induction p with
  | nil => rfl
  | cons c ps ih => simp [leadsWith, ih]

/-- Scanning a list that starts with the (non-empty) pattern deletes
that occurrence; if the remainder contains no further occurrence it is
returned unchanged. -/
theorem pyDeleteAux_head (c : Char) (ps t : List Char)
    (ht : occursIn (c :: ps) t = false) :
    pyDeleteAux (c :: ps) ((c :: ps) ++ t).length ((c :: ps) ++ t) = t := by
  show pyDeleteAux (c :: ps) ((ps ++ t).length + 1) (c :: (ps ++ t)) = t
  rw [pyDeleteAux]
  have hlw : leadsWith (c :: ps) (c :: (ps ++ t)) = true :=
    leadsWith_append_self (c :: ps) t
  rw [hlw]
  simp only [if_true]
  have hdrop : List.drop (c :: ps).length (c :: (ps ++ t)) = t := by
    rw [List.length_cons, List.drop_succ_cons, List.drop_left]
  rw [hdrop]
  exact pyDeleteAux_of_not_occursIn _ _ _ ht

/-- C4 fails as stated: the pandas `str.replace` of line 103 deletes
the pattern at any position, not only as a prefix.  The concrete name
`"Die Fraktion der Grünen"` starts with neither known prefix, yet the
cleanup changes it to `"Die Grünen"`. -/
theorem C4_counterexample :
    leadsWith "Fraktion der ".data "Die Fraktion der Grünen".data = false ∧
    leadsWith "Fraktionsgemeinschaft ".data "Die Fraktion der Grünen".data = false ∧
    cleanOrg "Die Fraktion der Grünen" = "Die Grünen" ∧
    ("Die Grünen" : String) ≠ "Die Fraktion der Grünen" :=
  ⟨by decide, by decide, rfl, by decide⟩

/-- C4 amended: the cleanup deletes every occurrence of
`"Fraktion der "` and then `"Fraktionsgemeinschaft "` anywhere in the
organization name (substring semantics, not prefix semantics).  A name
containing neither substring is unchanged, and a name that starts with
`"Fraktion der "` followed by a remainder containing neither substring
has exactly that prefix removed. -/
theorem C4_amended_substring_deletion (s t : String)
    (h1 : occursIn "Fraktion der ".data s.data = false)
    (h2 : occursIn "Fraktionsgemeinschaft ".data s.data = false)
    (h3 : occursIn "Fraktion der ".data t.data = false)
    (h4 : occursIn "Fraktionsgemeinschaft ".data t.data = false) :
    cleanOrg s = s ∧
    cleanOrg (String.mk ("Fraktion der ".data ++ t.data)) = t := by
  have unchanged : ∀ (pat u : String), occursIn pat.data u.data = false →
      pyReplaceEmpty pat u = u := by
    intro pat u hu
    unfold pyReplaceEmpty
    rw [pyDeleteAux_of_not_occursIn _ _ _ hu]
  constructor
  · show pyReplaceEmpty "Fraktionsgemeinschaft " (pyReplaceEmpty "Fraktion der " s) = s
    rw [unchanged _ _ h1, unchanged _ _ h2]
  · show pyReplaceEmpty "Fraktionsgemeinschaft "
      (pyReplaceEmpty "Fraktion der " (String.mk ("Fraktion der ".data ++ t.data))) = t
    have hinner : pyReplaceEmpty "Fraktion der "
        (String.mk ("Fraktion der ".data ++ t.data)) = t := by
      unfold pyReplaceEmpty
      rw [show "Fraktion der ".data = 'F' :: "raktion der ".data from rfl] at h3 ⊢
      rw [pyDeleteAux_head _ _ _ h3]
    rw [hinner, unchanged _ _ h4]

/-- Witness for C4 amended: `"Die Linke"` contains neither substring
and stays unchanged; `"Fraktion der "` + `"Grünen"` loses exactly the
prefix. -/
theorem C4_amended_substring_deletion_witness :
    (occursIn "Fraktion der ".data "Die Linke".data = false ∧
      occursIn "Fraktionsgemeinschaft ".data "Die Linke".data = false) ∧
    cleanOrg "Die Linke" = "Die Linke" ∧
    cleanOrg (String.mk ("Fraktion der ".data ++ "Grünen".data)) = "Grünen" := by
  have h := C4_amended_substring_deletion "Die Linke" "Grünen"
    (by decide) (by decide) (by decide) (by decide)
  exact ⟨⟨by decide, by decide⟩, h.1, h.2⟩

/-! ## Error handling of the loaders (C6) -/

/-- C6 fails as stated: a structurally malformed source file is not a
recoverable degraded state — only `FileNotFoundError` is caught, so on
malformed content both loaders propagate the exception instead of
returning an empty result. -/
theorem C6_counterexample :
    load_and_preprocess_decisions SourceFile.malformed =
      Except.error PyError.valueOrKeyError ∧
    load_and_preprocess_people SourceFile.malformed
      (SourceFile.wellFormed []) (SourceFile.wellFormed []) =
      Except.error PyError.valueOrKeyError :=
  ⟨rfl, rfl⟩

/-- C6 amended: a missing source file is recovered into an empty result
by the `except FileNotFoundError` clause of each loader, but malformed
content (invalid JSON or a missing `data` key) raises an uncaught
exception, whichever of the three people-side files it occurs in. -/
theorem C6_amended_error_handling :
    load_and_preprocess_decisions SourceFile.missing = Except.ok ([], []) ∧
    load_and_preprocess_decisions SourceFile.malformed =
      Except.error PyError.valueOrKeyError ∧
    (∀ (osrc : SourceFile Organization) (msrc : SourceFile Membership),
      load_and_preprocess_people SourceFile.missing osrc msrc = Except.ok []) ∧
    (∀ (osrc : SourceFile Organization) (msrc : SourceFile Membership),
      load_and_preprocess_people SourceFile.malformed osrc msrc =
        Except.error PyError.valueOrKeyError) ∧
    (∀ (ps : List Person) (msrc : SourceFile Membership),
      load_and_preprocess_people (SourceFile.wellFormed ps) SourceFile.missing
        msrc = Except.ok []) ∧
    (∀ (ps : List Person) (os : List Organization),
      load_and_preprocess_people (SourceFile.wellFormed ps)
        (SourceFile.wellFormed os) SourceFile.missing = Except.ok []) ∧
    (∀ (ps : List Person) (os : List Organization),
      load_and_preprocess_people (SourceFile.wellFormed ps)
        (SourceFile.wellFormed os) SourceFile.malformed =
        Except.error PyError.valueOrKeyError) :=
  ⟨rfl, rfl, fun _ _ => rfl, fun _ _ => rfl, fun _ _ => rfl,
    fun _ _ => rfl, fun _ _ => rfl⟩

/-- Witness for C10 at a concrete input whose membership has a present
`role` but a missing `startDate`: only the missing column gets the
sentinel. -/
theorem C10_fillna_all_columns_witness :
    ∃ row ∈ load_and_preprocess_people_rows [⟨"p1", some "Alice"⟩]
      [⟨"o1", some "Greens"⟩] [⟨"p1", "o1", some "member", none⟩],
      row.StartDate = "Unknown" := by
  obtain ⟨row, hrow, -, h2⟩ := C10_fillna_all_columns [⟨"p1", some "Alice"⟩]
    [⟨"o1", some "Greens"⟩] [⟨"p1", "o1", some "member", none⟩]
    ⟨"p1", "o1", some "member", none⟩ (by decide)
  exact ⟨row, hrow, h2 rfl⟩

end Dashboard
